import Mathlib

/-!
Verification development for the NewAvalon skirmish rules engine.

Shallow embedding of:
- `src/server/utils/boardUtils.ts` (`recalculateBoardStatuses`),
- `src/unnamed/part_000` (phase management: `checkRoundEnd`, `endRound`,
  `performDrawPhase`, `handleToggleActivePlayer`, `handleNextPhase`,
  `handlePrevPhase`, `handleSetPhase`),
- `src/server/handlers/readyCheck.ts` (starting-hand distribution).

Modelling conventions:
- JS numbers that hold integers are modelled as `Int` (phases, scores, rounds)
  or `Nat` (player ids, grid indices); the `SET_PHASE` payload, which passes
  through `Number(...)` coercion, is modelled as `Option ℚ` (`none` = NaN).
- `undefined`/`null` optional fields are `Option _`; a missing `statuses`
  array is identified with `[]`, a deleted `bonusPower` with `0` (the code
  only ever reads them through `|| 0` / `?.some(...)`, so the two JS shapes
  are observationally equal to this model).
- JS `x % 4` on integers is `Int.tmod` (sign of the dividend);
  `Math.floor(a / 2)` on integers is `Int.fdiv`; `x || 0` on an integer is
  the identity except at `0`, where it is also `0`.
- `Object.keys` / `for..in` over an object keyed by non-negative integer
  player ids enumerates the keys in ascending numeric order (array-index
  keys per the ECMAScript ordinary [[OwnPropertyKeys]]); the code's
  "first key" is therefore the minimum id, modelled by `minNat?`.
- The mutating passes of `recalculateBoardStatuses` only ever read fields
  (`ownerId`, `isFaceDown`, `baseId`, the `Stun` status) that no pass
  writes, so each pass is modelled as a pure per-cell function of the reset
  board.
-/

namespace NewAvalon

/-- Status tag. `Support` and `Threat` are derived; `Stun` and any other
tag are persistent and only read by the engine. -/
inductive StatusType where
  | support
  | threat
  | stun
  | otherTag (s : String)
deriving DecidableEq

/-- A status entry `{type, addedByPlayerId}`. -/
structure Status where
  type : StatusType
  addedByPlayerId : Option Nat
deriving DecidableEq

/-- A card. `bonusPower = 0` models the deleted/absent JS field. -/
structure Card where
  id : Nat
  baseId : String
  ownerId : Option Nat
  isFaceDown : Bool
  power : Int
  bonusPower : Nat
  statuses : List Status
deriving DecidableEq

/-- A board cell holds at most one card; a board is a square grid,
row-major, of side `board.length` (7 in production). -/
abbrev Board : Type := List (List (Option Card))

/-- A player. `autoDrawEnabled = none` models the unset JS field. -/
structure Player where
  id : Nat
  teamId : Option Nat
  isDummy : Bool
  isDisconnected : Bool
  isReady : Bool
  autoDrawEnabled : Option Bool
  score : Int
  hand : List Card
  deck : List Card
deriving DecidableEq

/-- The per-session aggregate game state. `roundWinners` is the JS object
`{round: [playerIds]}` kept as an association list with strictly ascending
round keys (the order `Object.values` enumerates). -/
structure GameState where
  board : Board
  activeGridSize : Nat
  players : List Player
  currentPhase : Int
  activePlayerId : Option Nat
  startingPlayerId : Option Nat
  currentRound : Int
  turnNumber : Int
  roundWinners : List (Int × List Nat)
  gameWinner : Option Nat
  isGameStarted : Bool
  isReadyCheckActive : Bool
  isRoundEndModalOpen : Bool
  roundEndTriggered : Bool
  autoAbilitiesEnabled : Bool
deriving DecidableEq

/-- A handler outcome: the error message sent on the socket (if any) and
the session state afterwards (unchanged when an error was reported). -/
structure HandlerOutput where
  error : Option String
  state : GameState
deriving DecidableEq

/-! ### Generic helpers -/

/-- Indexed map, used to model the `for (r) for (c)` board traversals. -/
def mapWithIdx (f : Nat → α → β) : Nat → List α → List β
  | _, [] => []
  | i, a :: l => f i a :: mapWithIdx f (i + 1) l

/-- Minimum of a list of naturals, `none` on the empty list.  Models the
first key of an ascending enumeration of numeric JS object keys. -/
def minNat? (l : List Nat) : Option Nat :=
  l.foldr (fun x acc => match acc with
    | none => some x
    | some m => some (min x m)) none

/-- Maximum of a list of integers, `none` on the empty list.  Models
`Math.max(...xs)` (which is `-S∞` on the empty spread). -/
def maxInt? (l : List Int) : Option Int :=
  l.foldr (fun x acc => match acc with
    | none => some x
    | some m => some (max x m)) none

/-- Cell access `board[r][c].card`; total, `none` out of range. -/
def getCell (b : Board) (r c : Nat) : Option Card :=
  ((b : List (List (Option Card))).getD r []).getD c none

/-! ### Board status engine (`recalculateBoardStatuses`) -/

def HERO_MR_PEARL_ID : String := "mrPearlDoF"

def HERO_REVEREND_ID : String := "reverendOfTheChoir"

/-- `card.statuses?.some(s => s.type === 'Stun')`. -/
def isStunned (k : Card) : Bool :=
  k.statuses.any (fun s => s.type == StatusType.stun)

/-- Step 1 of the recomputation: statuses that survive the reset
(`filter(s => s.type !== 'Support' && s.type !== 'Threat')`). -/
def persistStatuses (l : List Status) : List Status :=
  l.filter (fun s =>
    !(s.type == StatusType.support || s.type == StatusType.threat))

/-- Step 1 of the recomputation on one card: strip derived statuses,
delete `bonusPower`. -/
def resetCard (k : Card) : Card :=
  { k with statuses := persistStatuses k.statuses, bonusPower := 0 }

/-- Step 1 of the recomputation on the (cloned) board. -/
def resetBoard (b : Board) : Board :=
  (b : List (List (Option Card))).map (fun row => row.map (Option.map resetCard))

/-- The up-to-4 orthogonal neighbour cards of `(r, c)`, in the source's
scan order up, down, left, right, bounds-checked against the grid side. -/
def neighborCards (rb : Board) (r c : Nat) : List Card :=
  let n := (rb : List (List (Option Card))).length
  (((if 0 < r then [(r - 1, c)] else []) ++ [(r + 1, c)] ++
    (if 0 < c then [(r, c - 1)] else []) ++ [(r, c + 1)]).filter
      (fun p => p.1 < n && p.2 < n)).filterMap (fun p => getCell rb p.1 p.2)

/-- Neighbours that can grant Support or pose Threat: placed, owned,
face-up, not stunned. -/
def eligibleNeighborCards (rb : Board) (r c : Nat) : List Card :=
  (neighborCards rb r c).filter (fun nk =>
    nk.ownerId.isSome && !nk.isFaceDown && !isStunned nk)

/-- `playerTeamMap.get(pid)`: the map is filled in list order, so a later
duplicate id would win, hence the reversed search. -/
def teamOf (players : List Player) (pid : Nat) : Option Nat :=
  match players.reverse.find? (fun p => p.id == pid) with
  | some p => p.teamId
  | none => none

/-- `isFriendly`: same owner, or both owners have a defined, equal team id. -/
def isFriendlyTo (players : List Player) (o : Nat) (nk : Card) : Bool :=
  match nk.ownerId with
  | some no =>
      o == no ||
        (match teamOf players o, teamOf players no with
         | some t, some t2 => t == t2
         | _, _ => false)
  | none => false

/-- `hasFriendlyNeighbor` for the card at `(r, c)` owned by `o`. -/
def hasFriendlyNeighbor (rb : Board) (players : List Player) (r c : Nat) (o : Nat) : Bool :=
  (eligibleNeighborCards rb r c).any (isFriendlyTo players o)

/-- The owners of the enemy eligible neighbours, with multiplicity, in
scan order (this is the insertion order into `enemyNeighborsByPlayer`). -/
def enemyNeighborOwners (rb : Board) (players : List Player) (r c : Nat) (o : Nat) : List Nat :=
  ((eligibleNeighborCards rb r c).filter
    (fun nk => !isFriendlyTo players o nk)).filterMap Card.ownerId

/-- Threat condition A: the first (ascending-id `for..in` enumeration,
hence minimum) enemy player contributing at least two neighbours. -/
def threatCondA (rb : Board) (players : List Player) (r c : Nat) (o : Nat) : Option Nat :=
  let enemies := enemyNeighborOwners rb players r c o
  minNat? (enemies.filter (fun e => 2 ≤ enemies.count e))

/-- Condition B's positional guard: the cell is inside the active region
(`offset = Math.floor((n - ags) / 2)`, i.e. `Int.fdiv`) and on its outer
edge. -/
def isActiveEdgeCell (n ags : Nat) (r c : Nat) : Bool :=
  let ni : Int := n
  let a : Int := ags
  let offset := Int.fdiv (ni - a) 2
  let ri : Int := r
  let ci : Int := c
  decide ((offset ≤ ri ∧ ri < offset + a ∧ offset ≤ ci ∧ ci < offset + a) ∧
    (ri = offset ∨ ri = offset + a - 1 ∨ ci = offset ∨ ci = offset + a - 1))

/-- Conditions A then B for the Threat status of the card at `(r, c)`
owned by `o`.  Condition B fires only inside the active region, on its
outer edge, with at least one enemy neighbour; `Object.keys(...)[0]` over
ascending numeric keys is the minimum enemy id. -/
def threatAt (rb : Board) (players : List Player) (ags : Nat) (r c : Nat) (o : Nat) : Option Nat :=
  match threatCondA rb players r c o with
  | some t => some t
  | none =>
      if isActiveEdgeCell (rb : List (List (Option Card))).length ags r c
      then minNat? (enemyNeighborOwners rb players r c o)
      else none

/-- Does row `r` contain a face-up, owned-by-`o`, non-stunned hero card
with template `heroId`?  (The hero collection scan of step 3.) -/
def rowHasHero (heroId : String) (rb : Board) (r o : Nat) : Bool :=
  (List.range (rb : List (List (Option Card))).length).any (fun i =>
    match getCell rb r i with
    | some k =>
        k.baseId == heroId && !k.isFaceDown && k.ownerId == some o && !isStunned k
    | none => false)

/-- Column version of `rowHasHero`. -/
def colHasHero (heroId : String) (rb : Board) (c o : Nat) : Bool :=
  (List.range (rb : List (List (Option Card))).length).any (fun i =>
    match getCell rb i c with
    | some k =>
        k.baseId == heroId && !k.isFaceDown && k.ownerId == some o && !isStunned k
    | none => false)

/-- Steps 2 and 3 of the recomputation for the single (already reset)
card `k` sitting at `(r, c)` of the reset board `rb`:
- adjacency Support / Threat (only for placed, owned, face-up cards);
- Reverend line Support, added only when adjacency did not already add
  Support (there is no self-exclusion: the push only checks owner,
  face-up, and absence of a previous Support entry);
- Mr. Pearl line bonus power, once per row and once per column, with all
  copies of the Mr. Pearl template excluded as targets.
The dedup sets of the source (`processedRowsFor...`) only avoid repeat
work: a second pass over the same `(line, owner)` key would be a no-op
for Support and is skipped for power, so a per-target existence test over
the line is equivalent. -/
def deriveCard (rb : Board) (players : List Player) (ags : Nat) (r c : Nat) (k : Card) : Card :=
  match k.ownerId, k.isFaceDown with
  | some o, false =>
      let supAdj := hasFriendlyNeighbor rb players r c o
      let thr := threatAt rb players ags r c o
      let revLine := rowHasHero HERO_REVEREND_ID rb r o || colHasHero HERO_REVEREND_ID rb c o
      { k with
        statuses := k.statuses
          ++ (if supAdj then [⟨StatusType.support, some o⟩] else [])
          ++ (match thr with
              | some t => [⟨StatusType.threat, some t⟩]
              | none => [])
          ++ (if revLine && !supAdj then [⟨StatusType.support, some o⟩] else [])
        bonusPower :=
          if k.baseId == HERO_MR_PEARL_ID then 0
          else (if rowHasHero HERO_MR_PEARL_ID rb r o then 1 else 0)
             + (if colHasHero HERO_MR_PEARL_ID rb c o then 1 else 0) }
  | _, _ => k

/-- Steps 2 and 3 over the whole reset board. -/
def deriveBoard (players : List Player) (ags : Nat) (rb : Board) : Board :=
  mapWithIdx (fun r row =>
    mapWithIdx (fun c cell => Option.map (deriveCard rb players ags r c) cell) 0 row) 0 rb

/-- `recalculateBoardStatuses(gameState)`: clone and reset, then derive
all statuses and bonuses.  Depends only on `board`, `activeGridSize` and
`players` (the other destructured fields are only logged). -/
def recalculateBoardStatuses (gs : GameState) : Board :=
  deriveBoard gs.players gs.activeGridSize (resetBoard gs.board)

/-- The owner of the first enemy neighbour in the scan order up, down,
left, right.  This follows the SPEC's words for the condition-B
attribution ("the first enemy player encountered in neighbor order"),
for comparison with what the code computes. -/
def firstEnemyInScanOrder (rb : Board) (players : List Player) (r c : Nat) (o : Nat) : Option Nat :=
  (enemyNeighborOwners rb players r c o).head?

/-! ### Turn phase state machine (`src/unnamed/part_000`) -/

/-- `10 + (round * 10)`. -/
def getRoundVictoryThreshold (round : Int) : Int :=
  10 + round * 10

/-- JS `x || 0` on an integer-valued number: `0` is the only falsy
integer, so this is the identity. -/
def jsOrZero (x : Int) : Int :=
  if x = 0 then 0 else x

/-- `checkRoundEnd(gameState, isDeselectCheck)`.  `p.score || 0` is the
identity on integer scores; `Math.max()` over no players is `-S∞`, below
every threshold, modelled by the `none` branch. -/
def checkRoundEnd (gs : GameState) (isDeselectCheck : Bool) : Bool :=
  if gs.isGameStarted = false then false
  else if gs.isRoundEndModalOpen = true then false
  else if gs.currentPhase ≠ 0 then false
  else if isDeselectCheck = false ∧ gs.activePlayerId ≠ gs.startingPlayerId then false
  else
    match maxInt? (gs.players.map Player.score) with
    | none => false
    | some m => decide (getRoundVictoryThreshold gs.currentRound ≤ m)

/-- `gameState.roundWinners[round] = winners` on the association list,
keeping the keys strictly ascending (the `Object.values` order). -/
def setRound : List (Int × List Nat) → Int → List Nat → List (Int × List Nat)
  | [], k, v => [(k, v)]
  | (k2, v2) :: rest, k, v =>
      if k = k2 then (k, v) :: rest
      else if k < k2 then (k, v) :: (k2, v2) :: rest
      else (k2, v2) :: setRound rest k v

/-- All recorded winner ids, with multiplicity, in ascending round order. -/
def allWinnerIds (rw : List (Int × List Nat)) : List Nat :=
  (rw.map Prod.snd).flatten

/-- `totalWins[pid]` accumulated over `Object.values(roundWinners)`. -/
def totalWins (rw : List (Int × List Nat)) (pid : Nat) : Nat :=
  (allWinnerIds rw).count pid

/-- `endRound(gameState)`: record this round's winners (all players at the
maximum score), then scan `Object.entries(totalWins)` — ascending player
id — and set `gameWinner` to the first id with at least 2 wins, leaving it
unchanged when there is none.  Finally raise the round-end flags. -/
def endRound (gs : GameState) : GameState :=
  let winners : List Nat :=
    match maxInt? (gs.players.map Player.score) with
    | none => []
    | some m => (gs.players.filter (fun p => p.score = m)).map Player.id
  let rw := setRound gs.roundWinners gs.currentRound winners
  { gs with
    roundWinners := rw
    gameWinner :=
      match minNat? ((allWinnerIds rw).filter (fun pid => 2 ≤ totalWins rw pid)) with
      | some w => some w
      | none => gs.gameWinner
    roundEndTriggered := true
    isRoundEndModalOpen := true }

/-- Replace the first player with id `pid` (the object the JS `find`
returns and mutates). -/
def updateFirst (f : Player → Player) (pid : Nat) : List Player → List Player
  | [] => []
  | p :: ps => if p.id = pid then f p :: ps else p :: updateFirst f pid ps

/-- Move the front card of the deck to the end of the hand
(`deck.splice(0,1); hand.push(card)`). -/
def drawPlayer (p : Player) : Player :=
  match p.deck with
  | [] => p
  | k :: rest => { p with deck := rest, hand := p.hand ++ [k] }

/-- The draw rule's `shouldDraw`: a dummy delegates to the host player
(id 1) having auto-draw explicitly enabled; a real player defaults to
`true` unless auto-draw is explicitly disabled. -/
def shouldDrawFor (players : List Player) (p : Player) : Bool :=
  if p.isDummy then
    match players.find? (fun q => q.id == 1) with
    | some host => host.autoDrawEnabled == some true
    | none => false
  else
    !(p.autoDrawEnabled == some false)

/-- The tail of the draw procedure once the active player was found:
empty-deck early exit, otherwise the `shouldDraw`-gated one-card draw,
the transition to Setup and the (non-deselect) round-end check. -/
def performDrawPhaseFound (gs : GameState) (pid : Nat) (ap : Player) : GameState :=
  if ap.deck = [] then { gs with currentPhase := 0 }
  else
    let players2 :=
      if shouldDrawFor gs.players ap then updateFirst drawPlayer pid gs.players
      else gs.players
    let gs2 := { gs with players := players2, currentPhase := 0 }
    if checkRoundEnd gs2 false then endRound gs2 else gs2

/-- `performDrawPhase(gameState)`.  The three early exits (no active
player — `null` and the not-found `undefined` case collapse to the same
observable outcome — and the empty deck) set phase 0 and return without
the round-end check; only the main path checks for round end after the
transition to Setup. -/
def performDrawPhase (gs : GameState) : GameState :=
  match gs.activePlayerId with
  | none => { gs with currentPhase := 0 }
  | some pid =>
      match gs.players.find? (fun p => p.id == pid) with
      | none => { gs with currentPhase := 0 }
      | some ap => performDrawPhaseFound gs pid ap

/-- The disjunction of `performDrawPhase`'s three draw-skipping early
exits (no active player / active player not found / empty deck). -/
def drawPhaseSkips (gs : GameState) : Bool :=
  match gs.activePlayerId with
  | none => true
  | some pid =>
      match gs.players.find? (fun p => p.id == pid) with
      | none => true
      | some ap => ap.deck == []

/-- `handleToggleActivePlayer` (session lookup abstracted away; note the
source performs NO `isGameStarted` check).  Re-clicking the active player
deselects and, for the starting player in Setup, runs the deselect-variant
round-end check; clicking another player selects them, forces Draw (−1)
and immediately performs the draw procedure. -/
def handleToggleActivePlayer (gs : GameState) (pid : Nat) : HandlerOutput :=
  if gs.activePlayerId = some pid then
    let gs1 := { gs with activePlayerId := none }
    if gs1.startingPlayerId = some pid ∧ gs1.currentPhase = 0 then
      if checkRoundEnd gs1 true then ⟨none, endRound gs1⟩ else ⟨none, gs1⟩
    else ⟨none, gs1⟩
  else
    ⟨none, performDrawPhase { gs with activePlayerId := some pid, currentPhase := -1 }⟩

/-- `handleNextPhase`: cyclic advance `(phase + 1) % 4` (JS `%` truncates
toward zero, `Int.tmod`), rejected before the match starts. -/
def handleNextPhase (gs : GameState) : HandlerOutput :=
  if gs.isGameStarted = false then ⟨some "Game has not started", gs⟩
  else
    let cp := jsOrZero gs.currentPhase
    ⟨none, { gs with currentPhase := Int.tmod (cp + 1) 4 }⟩

/-- `handlePrevPhase`: cyclic retreat `(phase - 1 + 4) % 4`, rejected
before the match starts. -/
def handlePrevPhase (gs : GameState) : HandlerOutput :=
  if gs.isGameStarted = false then ⟨some "Game has not started", gs⟩
  else
    let cp := jsOrZero gs.currentPhase
    ⟨none, { gs with currentPhase := Int.tmod (cp - 1 + 4) 4 }⟩

/-- The numeric tail of `handleSetPhase`: `Number.isInteger` then the
`[-1, 3]` range check, then the direct assignment. -/
def handleSetPhaseNum (gs : GameState) (q : ℚ) : HandlerOutput :=
  if q.den ≠ 1 then ⟨some "Invalid phase index; must be an integer", gs⟩
  else if q.num < -1 ∨ 4 ≤ q.num then
    ⟨some "Invalid phase index. Must be between -1 and 3", gs⟩
  else ⟨none, { gs with currentPhase := q.num }⟩

/-- `handleSetPhase` with the payload after `Number(...)` coercion
(`none` = NaN): rejected before the match starts, on a non-integer, and
outside `[-1, 3]`; otherwise the phase is set directly (no draw). -/
def handleSetPhase (gs : GameState) (phaseIndex : Option ℚ) : HandlerOutput :=
  if gs.isGameStarted = false then ⟨some "Game has not started", gs⟩
  else
    match phaseIndex with
    | none => ⟨some "Invalid phase index; must be an integer", gs⟩
    | some q => handleSetPhaseNum gs q

/-! ### Ready-check starting hands (`src/server/handlers/readyCheck.ts`) -/

/-- The starting-hand draw loop
`for (let i = 0; i < 6 && i < player.deck.length; i++)`, with the bound
`i < 6` carried as structural fuel (`fuel = 6 - i`) and the `i <
deck.length` test re-evaluated against the SHRINKING deck exactly as the
source does on every iteration. -/
def drawStartingLoopAux : Nat → Nat → List Card → List Card → List Card × List Card
  | 0, _, hand, deck => (hand, deck)
  | fuel + 1, i, hand, deck =>
      if i < deck.length then
        match deck with
        | [] => (hand, deck)
        | k :: rest => drawStartingLoopAux fuel (i + 1) (hand ++ [k]) rest
      else (hand, deck)

/-- One player's starting-hand draw (`cardsToDraw = 6`). -/
def drawStartingHand (p : Player) : Player :=
  let hd := drawStartingLoopAux 6 0 p.hand p.deck
  { p with hand := hd.1, deck := hd.2 }

/-- The starting-hand distribution at match start: players already holding
cards are skipped; the rest draw iff `shouldDraw` (host delegation for
dummies, default-true own preference otherwise, with the host's flag read
once before the loop). -/
def startingHands (players : List Player) : List Player :=
  let hostAuto :=
    match players.find? (fun p => p.id == 1) with
    | some host => host.autoDrawEnabled == some true
    | none => false
  players.map (fun p =>
    if p.hand ≠ [] then p
    else if (if p.isDummy then hostAuto else !(p.autoDrawEnabled == some false)) = false then p
    else drawStartingHand p)

/-! ### Concrete states used by counterexamples and witnesses -/

/-- A bare player with the given id and score. -/
def mkPlayer (pid : Nat) (sc : Int) : Player :=
  { id := pid, teamId := none, isDummy := false, isDisconnected := false,
    isReady := false, autoDrawEnabled := none, score := sc, hand := [], deck := [] }

/-- A started two-handed session skeleton (board irrelevant fields empty). -/
def baseState : GameState :=
  { board := [], activeGridSize := 7, players := [], currentPhase := 0,
    activePlayerId := none, startingPlayerId := none, currentRound := 1,
    turnNumber := 1, roundWinners := [], gameWinner := none,
    isGameStarted := true, isReadyCheckActive := false,
    isRoundEndModalOpen := false, roundEndTriggered := false,
    autoAbilitiesEnabled := true }

/-- An empty 7-cell board row. -/
def emptyRow7 : List (Option Card) :=
  [none, none, none, none, none, none, none]

/-- A face-up Reverend of The Choir owned by player 1, no statuses. -/
def revCard : Card :=
  { id := 100, baseId := "reverendOfTheChoir", ownerId := some 1,
    isFaceDown := false, power := 5, bonusPower := 0, statuses := [] }

/-- A 7×7 board whose only card is the Reverend at (3, 3). -/
def boardC1 : Board :=
  [emptyRow7, emptyRow7, emptyRow7,
   [none, none, none, some revCard, none, none, none],
   emptyRow7, emptyRow7, emptyRow7]

/-- Lone-Reverend state: 7×7 board, active grid 5, one player. -/
def gsC1 : GameState :=
  { baseState with
    board := boardC1
    activeGridSize := 5
    players := [mkPlayer 1 0] }

/-- A plain face-up unit owned by player `o`. -/
def unitCard (cid o : Nat) : Card :=
  { id := cid, baseId := "vanguard", ownerId := some o,
    isFaceDown := false, power := 3, bonusPower := 0, statuses := [] }

/-- 7×7 board: player 2's unit at (0,0), player 1's at (0,1) (on the
active edge), player 3's at (1,1).  The scan order at (0,1) meets the
enemy of player 3 (down) before the enemy of player 2 (left). -/
def boardC3 : Board :=
  [[some (unitCard 2 2), some (unitCard 1 1), none, none, none, none, none],
   [none, some (unitCard 3 3), none, none, none, none, none],
   emptyRow7, emptyRow7, emptyRow7, emptyRow7, emptyRow7]

/-- Three-player state over `boardC3`, active grid 7. -/
def gsC3 : GameState :=
  { baseState with
    board := boardC3
    activeGridSize := 7
    players := [mkPlayer 1 0, mkPlayer 2 0, mkPlayer 3 0] }

/-- Draw-phase state: the active player is the starting player, holds an
empty deck, and has already reached the round-1 threshold score of 20. -/
def gsC2 : GameState :=
  { baseState with
    players := [mkPlayer 1 20]
    currentPhase := -1
    activePlayerId := some 1
    startingPlayerId := some 1 }

/-- A session whose match has NOT started, in phase 1, with two players. -/
def gsC4 : GameState :=
  { baseState with
    isGameStarted := false
    currentPhase := 1
    players := [mkPlayer 1 0, mkPlayer 2 0] }

/-- Player 2 already holds 2 recorded round wins (`gameWinner = 2`);
player 1 holds 1 win and is about to win round 4. -/
def gsC6 : GameState :=
  { baseState with
    players := [mkPlayer 1 20, mkPlayer 2 5]
    currentRound := 4
    roundWinners := [(1, [2]), (2, [2]), (3, [1])]
    gameWinner := some 2 }

/-- A first-round end with a single winner short of 2 total wins. -/
def gsC6w : GameState :=
  { baseState with players := [mkPlayer 1 0], currentRound := 1 }

/-- A deck filler card. -/
def mkDeckCard (n : Nat) : Card :=
  { id := n, baseId := "deckCard", ownerId := some 1,
    isFaceDown := false, power := 1, bonusPower := 0, statuses := [] }

/-- A real player with an empty hand, auto-draw unset (defaults to draw),
and a deck of exactly 6 cards. -/
def pC8 : Player :=
  { mkPlayer 1 0 with
    deck := [mkDeckCard 1, mkDeckCard 2, mkDeckCard 3,
             mkDeckCard 4, mkDeckCard 5, mkDeckCard 6] }

/-- A started session in phase 1 (for the set-phase witness). -/
def gsW9 : GameState :=
  { baseState with currentPhase := 1, players := [mkPlayer 1 0] }

/-- A started session in the transient Draw phase (−1). -/
def gsW10 : GameState :=
  { baseState with currentPhase := -1, players := [mkPlayer 1 0] }

/-! ### Helper lemmas -/

theorem mapWithIdx_getElem? (f : Nat → α → β) (i : Nat) (l : List α) (j : Nat) :
    (mapWithIdx f i l)[j]? = (l[j]?).map (f (i + j)) := by
  induction l generalizing i j with
  | nil => simp [mapWithIdx]
  | cons a t ih =>
      cases j with
      | zero => simp [mapWithIdx]
      | succ j =>
          have hidx : i + 1 + j = i + (j + 1) := by omega
          simp only [mapWithIdx, List.getElem?_cons_succ]
          rw [ih (i + 1) j, hidx]

theorem map_mapWithIdx (g : β → γ) (f : Nat → α → β) (i : Nat) (l : List α) :
    (mapWithIdx f i l).map g = mapWithIdx (fun j a => g (f j a)) i l := by
  induction l generalizing i with
  | nil => rfl
  | cons a t ih => simp [mapWithIdx, ih]

theorem mapWithIdx_eq_map (f : Nat → α → β) (g : α → β) (h : ∀ j a, f j a = g a)
    (i : Nat) (l : List α) : mapWithIdx f i l = l.map g := by
  induction l generalizing i with
  | nil => rfl
  | cons a t ih => simp [mapWithIdx, h, ih]

theorem minNat?_cons (x : Nat) (l : List Nat) :
    minNat? (x :: l) =
      match minNat? l with
      | none => some x
      | some m => some (min x m) := rfl

theorem minNat?_eq_none {l : List Nat} : minNat? l = none ↔ l = [] := by
  cases l with
  | nil => simp [minNat?]
  | cons x t =>
      rw [minNat?_cons]
      cases ht : minNat? t <;> simp

theorem minNat?_mem : ∀ {l : List Nat} {w : Nat}, minNat? l = some w → w ∈ l := by
  intro l
  induction l with
  | nil => intro w h; simp [minNat?] at h
  | cons x t ih =>
      intro w h
      rw [minNat?_cons] at h
      cases ht : minNat? t with
      | none =>
          rw [ht] at h
          injection h with h
          exact h ▸ List.mem_cons_self x t
      | some m =>
          rw [ht] at h
          injection h with h
          rcases min_choice x m with hmin | hmin
          · rw [hmin] at h
            exact h ▸ List.mem_cons_self x t
          · rw [hmin] at h
            exact List.mem_cons_of_mem x (h ▸ ih ht)

theorem minNat?_le : ∀ {l : List Nat} {w : Nat}, minNat? l = some w → ∀ y ∈ l, w ≤ y := by
  intro l
  induction l with
  | nil => intro w _ y hy; cases hy
  | cons a t ih =>
      intro w h y hy
      rw [minNat?_cons] at h
      cases ht : minNat? t with
      | none =>
          rw [ht] at h
          injection h with h
          have htnil := minNat?_eq_none.mp ht
          subst htnil
          subst h
          rcases List.mem_cons.mp hy with hya | hyt
          · rw [hya]
          · cases hyt
      | some m =>
          rw [ht] at h
          injection h with h
          rcases List.mem_cons.mp hy with hya | hyt
          · rw [hya]
            exact h ▸ min_le_left a m
          · exact le_trans (h ▸ min_le_right a m) (ih ht y hyt)

theorem maxInt?_cons (x : Int) (l : List Int) :
    maxInt? (x :: l) =
      match maxInt? l with
      | none => some x
      | some m => some (max x m) := rfl

theorem maxInt?_eq_none {l : List Int} : maxInt? l = none ↔ l = [] := by
  cases l with
  | nil => simp [maxInt?]
  | cons x t =>
      rw [maxInt?_cons]
      cases ht : maxInt? t <;> simp

theorem maxInt?_le_iff (t : Int) :
    ∀ l : List Int, (∃ m, maxInt? l = some m ∧ t ≤ m) ↔ ∃ x ∈ l, t ≤ x := by
  intro l
  induction l with
  | nil => simp [maxInt?]
  | cons x xs ih =>
      rw [maxInt?_cons]
      cases hxs : maxInt? xs with
      | none =>
          have := maxInt?_eq_none.mp hxs
          subst this
          simp
      | some m =>
          rw [hxs] at ih
          show (∃ mm, some (max x m) = some mm ∧ t ≤ mm) ↔ _
          constructor
          · rintro ⟨mm, hmm, htm⟩
            injection hmm with hmm
            subst hmm
            rcases le_max_iff.mp htm with hc | hc
            · exact ⟨x, List.mem_cons_self x xs, hc⟩
            · obtain ⟨y, hy, hty⟩ := ih.mp ⟨m, rfl, hc⟩
              exact ⟨y, List.mem_cons_of_mem x hy, hty⟩
          · rintro ⟨y, hy, hty⟩
            refine ⟨max x m, rfl, ?_⟩
            rcases List.mem_cons.mp hy with hc | hc
            · subst hc
              exact le_max_of_le_left hty
            · obtain ⟨mm, hmm, htm⟩ := ih.mpr ⟨y, hc, hty⟩
              injection hmm with hmm
              subst hmm
              exact le_max_of_le_right htm

theorem getCell_resetBoard (b : Board) (r c : Nat) :
    getCell (resetBoard b) r c = (getCell b r c).map resetCard := by
  unfold getCell resetBoard
  simp only [List.getD_eq_getElem?_getD, List.getElem?_map]
  cases b[r]? with
  | none => rfl
  | some row =>
      simp only [Option.map_some', Option.getD_some, List.getElem?_map]
      cases row[c]? with
      | none => rfl
      | some cell => cases cell <;> rfl

theorem getCell_deriveBoard (P : List Player) (A : Nat) (rb : Board) (r c : Nat) :
    getCell (deriveBoard P A rb) r c = (getCell rb r c).map (deriveCard rb P A r c) := by
  unfold getCell deriveBoard
  simp only [List.getD_eq_getElem?_getD, mapWithIdx_getElem?]
  cases rb[r]? with
  | none => rfl
  | some row =>
      simp only [Option.map_some', Option.getD_some, mapWithIdx_getElem?, Nat.zero_add]
      cases row[c]? with
      | none => rfl
      | some cell => cases cell <;> rfl

theorem resetBoard_length (b : Board) : (resetBoard b).length = b.length := by
  simp [resetBoard]

theorem any_stun_persist (l : List Status) :
    (persistStatuses l).any (fun s => s.type == StatusType.stun) =
      l.any (fun s => s.type == StatusType.stun) := by
  induction l with
  | nil => rfl
  | cons s t ih =>
      cases hs : s.type <;>
        simp [persistStatuses, List.filter_cons, hs] <;>
        simp [persistStatuses] at ih <;> exact ih

theorem isStunned_resetCard (k : Card) : isStunned (resetCard k) = isStunned k := by
  unfold isStunned resetCard
  exact any_stun_persist k.statuses

theorem rowHasHero_resetBoard (hid : String) (b : Board) (r o : Nat) :
    rowHasHero hid (resetBoard b) r o = rowHasHero hid b r o := by
  unfold rowHasHero
  rw [resetBoard_length]
  have hfn : ∀ i : Nat,
      (match getCell (resetBoard b) r i with
       | some k => k.baseId == hid && !k.isFaceDown && k.ownerId == some o && !isStunned k
       | none => false) =
      (match getCell b r i with
       | some k => k.baseId == hid && !k.isFaceDown && k.ownerId == some o && !isStunned k
       | none => false) := by
    intro i
    rw [getCell_resetBoard]
    cases getCell b r i with
    | none => rfl
    | some k =>
        show ((resetCard k).baseId == hid && !(resetCard k).isFaceDown &&
          (resetCard k).ownerId == some o && !isStunned (resetCard k)) = _
        rw [isStunned_resetCard]
        rfl
  rw [funext hfn]

theorem colHasHero_resetBoard (hid : String) (b : Board) (c o : Nat) :
    colHasHero hid (resetBoard b) c o = colHasHero hid b c o := by
  unfold colHasHero
  rw [resetBoard_length]
  have hfn : ∀ i : Nat,
      (match getCell (resetBoard b) i c with
       | some k => k.baseId == hid && !k.isFaceDown && k.ownerId == some o && !isStunned k
       | none => false) =
      (match getCell b i c with
       | some k => k.baseId == hid && !k.isFaceDown && k.ownerId == some o && !isStunned k
       | none => false) := by
    intro i
    rw [getCell_resetBoard]
    cases getCell b i c with
    | none => rfl
    | some k =>
        show ((resetCard k).baseId == hid && !(resetCard k).isFaceDown &&
          (resetCard k).ownerId == some o && !isStunned (resetCard k)) = _
        rw [isStunned_resetCard]
        rfl
  rw [funext hfn]

theorem persist_append (l1 l2 : List Status) :
    persistStatuses (l1 ++ l2) = persistStatuses l1 ++ persistStatuses l2 := by
  unfold persistStatuses
  exact List.filter_append ..

theorem persist_idem (l : List Status) :
    persistStatuses (persistStatuses l) = persistStatuses l := by
  unfold persistStatuses
  rw [List.filter_filter]
  exact List.filter_congr (fun a _ => by rw [Bool.and_self])

theorem resetCard_idem (k : Card) : resetCard (resetCard k) = resetCard k := by
  simp [resetCard, persist_idem]

theorem resetCard_deriveCard (rb : Board) (P : List Player) (A : Nat) (r c : Nat) (k : Card) :
    resetCard (deriveCard rb P A r c k) = resetCard k := by
  have hA : ∀ (bb : Bool) (oo : Nat),
      persistStatuses (if bb then [⟨StatusType.support, some oo⟩] else []) = [] := by
    intro bb oo
    cases bb <;> simp [persistStatuses]
  have hB : ∀ th : Option Nat,
      persistStatuses (match th with
        | some tt => [⟨StatusType.threat, some tt⟩]
        | none => []) = [] := by
    intro th
    cases th <;> simp [persistStatuses]
  unfold deriveCard
  cases ho : k.ownerId with
  | none => cases k.isFaceDown <;> rfl
  | some o =>
      cases hf : k.isFaceDown with
      | true => rfl
      | false =>
          simp only [resetCard, persist_append, hA, hB, List.append_nil]
          rw [ho, hf]

theorem resetBoard_deriveBoard (P : List Player) (A : Nat) (rb : Board) :
    resetBoard (deriveBoard P A rb) = resetBoard rb := by
  unfold resetBoard deriveBoard
  rw [map_mapWithIdx]
  refine mapWithIdx_eq_map _ _ ?_ 0 rb
  intro r row
  rw [map_mapWithIdx]
  refine mapWithIdx_eq_map _ _ ?_ 0 row
  intro c cell
  cases cell with
  | none => rfl
  | some k =>
      show some (resetCard (deriveCard rb P A r c k)) = some (resetCard k)
      rw [resetCard_deriveCard]

theorem resetBoard_idem (b : Board) : resetBoard (resetBoard b) = resetBoard b := by
  unfold resetBoard
  rw [List.map_map]
  refine List.map_congr_left ?_
  intro row _
  simp only [Function.comp_apply]
  rw [List.map_map]
  refine List.map_congr_left ?_
  intro cell _
  simp only [Function.comp_apply]
  cases cell with
  | none => rfl
  | some k =>
      show some (resetCard (resetCard k)) = some (resetCard k)
      rw [resetCard_idem]

/-! ### Claim theorems -/

/-- Projection helper: `endRound` never changes the phase. -/
theorem endRound_currentPhase (g : GameState) : (endRound g).currentPhase = g.currentPhase := rfl

/-- C7: `recalculateBoardStatuses` is idempotent — replacing the board
with the recomputation's result and recomputing again returns an
identical board. -/
theorem recalculateBoardStatuses_idempotent (gs : GameState) :
    recalculateBoardStatuses { gs with board := recalculateBoardStatuses gs } =
      recalculateBoardStatuses gs := by
  show deriveBoard gs.players gs.activeGridSize
      (resetBoard (deriveBoard gs.players gs.activeGridSize (resetBoard gs.board))) =
    deriveBoard gs.players gs.activeGridSize (resetBoard gs.board)
  rw [resetBoard_deriveBoard, resetBoard_idem]

/-- C1 counterexample: on a board whose only card is a lone face-up
Reverend owned by player 1, the recomputation gives the Reverend itself a
Support status (from its own row/column aura — there is no other possible
source), so the hero buffing itself is NOT excluded. -/
theorem reverend_self_support_cex :
    (getCell (recalculateBoardStatuses gsC1) 3 3).map Card.statuses =
      some [⟨StatusType.support, some 1⟩] := by decide

/-- C1 amended: the Reverend aura grants Support to every face-up card of
the hero's owner on the hero's full row and column — including the
Reverend card itself (no self-exclusion). -/
theorem reverend_line_support (gs : GameState) (r c : Nat) (k : Card) (o : Nat)
    (hcell : getCell gs.board r c = some k)
    (ho : k.ownerId = some o) (hf : k.isFaceDown = false)
    (hline : rowHasHero HERO_REVEREND_ID gs.board r o = true ∨
             colHasHero HERO_REVEREND_ID gs.board c o = true) :
    ∃ kk, getCell (recalculateBoardStatuses gs) r c = some kk ∧
      Status.mk StatusType.support (some o) ∈ kk.statuses := by
  have h1 : getCell (recalculateBoardStatuses gs) r c =
      some (deriveCard (resetBoard gs.board) gs.players gs.activeGridSize r c (resetCard k)) := by
    show getCell (deriveBoard gs.players gs.activeGridSize (resetBoard gs.board)) r c = _
    rw [getCell_deriveBoard, getCell_resetBoard, hcell]
    rfl
  refine ⟨_, h1, ?_⟩
  have ho2 : (resetCard k).ownerId = some o := ho
  have hf2 : (resetCard k).isFaceDown = false := hf
  have hrev : (rowHasHero HERO_REVEREND_ID (resetBoard gs.board) r o ||
      colHasHero HERO_REVEREND_ID (resetBoard gs.board) c o) = true := by
    rw [rowHasHero_resetBoard, colHasHero_resetBoard]
    rcases hline with hh | hh
    · rw [hh]
      rfl
    · rw [hh, Bool.or_true]
  unfold deriveCard
  rw [ho2, hf2]
  by_cases hsup : hasFriendlyNeighbor (resetBoard gs.board) gs.players r c o = true
  · simp [hsup, List.mem_append]
  · simp only [Bool.not_eq_true] at hsup
    simp [hsup, hrev, List.mem_append]

/-- C1 amended, witness: the lone Reverend of `gsC1` itself receives
Support from its own line. -/
theorem reverend_line_support_witness :
    ∃ kk, getCell (recalculateBoardStatuses gsC1) 3 3 = some kk ∧
      Status.mk StatusType.support (some 1) ∈ kk.statuses :=
  reverend_line_support gsC1 3 3 revCard 1 (by decide) (by decide) (by decide)
    (Or.inl (by decide))

/-- C3 counterexample: at (0,1) of `gsC3` the scan order (up, down, left,
right) meets player 3's unit first, yet the recorded Threat is attributed
to player 2 — the smallest enemy id — because `Object.keys` enumerates
numeric keys in ascending order, not insertion order. -/
theorem threatB_scan_order_cex :
    (getCell (recalculateBoardStatuses gsC3) 0 1).map Card.statuses =
        some [⟨StatusType.threat, some 2⟩] ∧
      firstEnemyInScanOrder (resetBoard gsC3.board) gsC3.players 0 1 1 = some 3 := by
  exact ⟨by decide, by decide⟩

/-- C3 amended: when condition B fires, the Threat is attributed to the
minimum enemy-neighbour owner id (ascending `Object.keys` enumeration),
not to the first enemy in scan order. -/
theorem threatAt_of_condA_none (rb : Board) (players : List Player) (ags : Nat)
    (r c o : Nat) (hA : threatCondA rb players r c o = none) :
    threatAt rb players ags r c o =
      if isActiveEdgeCell (rb : List (List (Option Card))).length ags r c
      then minNat? (enemyNeighborOwners rb players r c o)
      else none := by
  unfold threatAt
  rw [hA]

theorem threatB_attributed_to_min (rb : Board) (players : List Player) (ags : Nat)
    (r c o t : Nat)
    (hA : threatCondA rb players r c o = none)
    (ht : threatAt rb players ags r c o = some t) :
    t ∈ enemyNeighborOwners rb players r c o ∧
      ∀ e ∈ enemyNeighborOwners rb players r c o, t ≤ e := by
  rw [threatAt_of_condA_none rb players ags r c o hA] at ht
  by_cases hedge : isActiveEdgeCell (rb : List (List (Option Card))).length ags r c = true
  · rw [if_pos hedge] at ht
    exact ⟨minNat?_mem ht, fun e he => minNat?_le ht e he⟩
  · rw [if_neg hedge] at ht
    cases ht

/-- C3 amended, witness at the `gsC3` cell (0,1): the attributed player 2
is an enemy-neighbour owner and minimal among them. -/
theorem threatB_attributed_to_min_witness :
    2 ∈ enemyNeighborOwners (resetBoard gsC3.board) gsC3.players 0 1 1 ∧
      ∀ e ∈ enemyNeighborOwners (resetBoard gsC3.board) gsC3.players 0 1 1, 2 ≤ e :=
  threatB_attributed_to_min (resetBoard gsC3.board) gsC3.players 7 0 1 1 2
    (by decide) (by decide)

/-- C5: `checkRoundEnd` returns true exactly when the match has started,
the round-end modal is closed, the phase is Setup(0), the check is the
deselect variant or the active player is the starting player, and some
player has reached `10 + 10 × currentRound`. -/
theorem checkRoundEnd_iff (gs : GameState) (d : Bool) :
    checkRoundEnd gs d = true ↔
      gs.isGameStarted = true ∧ gs.isRoundEndModalOpen = false ∧ gs.currentPhase = 0 ∧
        (d = true ∨ gs.activePlayerId = gs.startingPlayerId) ∧
        ∃ p ∈ gs.players, 10 + 10 * gs.currentRound ≤ p.score := by
  unfold checkRoundEnd getRoundVictoryThreshold
  rw [Int.mul_comm]
  split_ifs with h1 h2 h3 h4
  · simp [h1]
  · simp [h2]
  · simp [h3]
  · have hdf : d = false := h4.1
    simp [hdf, h4.2]
  · have hb1 : gs.isGameStarted = true := by
      revert h1
      cases gs.isGameStarted <;> simp
    have hb2 : gs.isRoundEndModalOpen = false := by
      revert h2
      cases gs.isRoundEndModalOpen <;> simp
    have hb3 : gs.currentPhase = 0 := of_not_not h3
    have hb4 : d = true ∨ gs.activePlayerId = gs.startingPlayerId := by
      by_cases hd : d = true
      · exact Or.inl hd
      · right
        have hdf : d = false := by
          revert hd
          cases d <;> simp
        by_contra hne
        exact h4 ⟨hdf, hne⟩
    cases hm : maxInt? (gs.players.map Player.score) with
    | none =>
        have hnil : gs.players = [] := by
          have := maxInt?_eq_none.mp hm
          exact List.map_eq_nil_iff.mp this
        simp [hnil]
    | some m =>
        show decide (10 + 10 * gs.currentRound ≤ m) = true ↔ _
        constructor
        · intro hdec
          have hle : 10 + 10 * gs.currentRound ≤ m := of_decide_eq_true hdec
          obtain ⟨x, hx, hxle⟩ := (maxInt?_le_iff _ _).mp ⟨m, hm, hle⟩
          obtain ⟨p, hp, rfl⟩ := List.mem_map.mp hx
          exact ⟨hb1, hb2, hb3, hb4, p, hp, hxle⟩
        · rintro ⟨-, -, -, -, p, hp, hple⟩
          have hex : ∃ x ∈ gs.players.map Player.score, 10 + 10 * gs.currentRound ≤ x :=
            ⟨p.score, List.mem_map_of_mem _ hp, hple⟩
          obtain ⟨mm, hmm, hlem⟩ := (maxInt?_le_iff _ _).mpr hex
          rw [hm] at hmm
          injection hmm with hmm
          subst hmm
          exact decide_eq_true hlem

/-- C2 counterexample: in `gsC2` (active = starting player, score already
at the round-1 threshold, empty deck) the draw procedure exits through the
empty-deck path: the phase becomes Setup(0), the round-end evaluation would
fire on the resulting state, and yet no round end was triggered. -/
theorem drawPhase_skip_no_round_check_cex :
    performDrawPhase gsC2 = { gsC2 with currentPhase := 0 } ∧
      checkRoundEnd { gsC2 with currentPhase := 0 } false = true ∧
      (performDrawPhase gsC2).isRoundEndModalOpen = false ∧
      (performDrawPhase gsC2).roundEndTriggered = false := by
  refine ⟨by decide, by decide, by decide, by decide⟩

/-- C2 amended: `performDrawPhase` always ends with phase Setup(0), but
the three draw-skipping early exits (no active player, active player not
found, empty deck) return `{gs with currentPhase := 0}` unchanged
otherwise — in particular WITHOUT running the round-end evaluation, which
only the main path performs. -/
theorem performDrawPhase_none_eq (gs : GameState) (ha : gs.activePlayerId = none) :
    performDrawPhase gs = { gs with currentPhase := 0 } := by
  unfold performDrawPhase
  rw [ha]

theorem performDrawPhase_some_eq (gs : GameState) (pid : Nat)
    (ha : gs.activePlayerId = some pid) :
    performDrawPhase gs =
      match gs.players.find? (fun p => p.id == pid) with
      | none => { gs with currentPhase := 0 }
      | some ap => performDrawPhaseFound gs pid ap := by
  unfold performDrawPhase
  rw [ha]

theorem drawPhaseSkips_some_eq (gs : GameState) (pid : Nat)
    (ha : gs.activePlayerId = some pid) :
    drawPhaseSkips gs =
      match gs.players.find? (fun p => p.id == pid) with
      | none => true
      | some ap => ap.deck == [] := by
  unfold drawPhaseSkips
  rw [ha]

theorem performDrawPhaseFound_currentPhase (gs : GameState) (pid : Nat) (ap : Player) :
    (performDrawPhaseFound gs pid ap).currentPhase = 0 := by
  unfold performDrawPhaseFound
  by_cases hd : ap.deck = []
  · rw [if_pos hd]
  · rw [if_neg hd]
    dsimp only
    split <;> split <;> first | rw [endRound_currentPhase] | rfl

theorem performDrawPhaseFound_empty_deck (gs : GameState) (pid : Nat) (ap : Player)
    (hd : ap.deck = []) :
    performDrawPhaseFound gs pid ap = { gs with currentPhase := 0 } := by
  unfold performDrawPhaseFound
  rw [if_pos hd]

theorem performDrawPhase_spec (gs : GameState) :
    (performDrawPhase gs).currentPhase = 0 ∧
      (drawPhaseSkips gs = true → performDrawPhase gs = { gs with currentPhase := 0 }) := by
  cases ha : gs.activePlayerId with
  | none =>
      rw [performDrawPhase_none_eq gs ha, ha]
      exact ⟨rfl, fun _ => rfl⟩
  | some pid =>
      rw [performDrawPhase_some_eq gs pid ha]
      cases hfind : gs.players.find? (fun p => p.id == pid) with
      | none =>
          constructor
          · rfl
          · intro _
            rw [ha]
      | some ap =>
          constructor
          · show (performDrawPhaseFound gs pid ap).currentPhase = 0
            exact performDrawPhaseFound_currentPhase gs pid ap
          · intro hsk
            have hskEq := drawPhaseSkips_some_eq gs pid ha
            rw [hfind] at hskEq
            rw [hskEq] at hsk
            have hbeq : (ap.deck == []) = true := hsk
            have hd : ap.deck = [] := by simpa using hbeq
            show performDrawPhaseFound gs pid ap = _
            rw [performDrawPhaseFound_empty_deck gs pid ap hd, ha]

/-- C2 amended, witness: the empty-deck state `gsC2` exits with only the
phase changed. -/
theorem performDrawPhase_spec_witness :
    performDrawPhase gsC2 = { gsC2 with currentPhase := 0 } :=
  (performDrawPhase_spec gsC2).2 (by decide)

/-- C4 counterexample: on the not-started session `gsC4`,
`handleToggleActivePlayer` reports no error and mutates the state (it
performs no started-check), refuting the claim for this operation. -/
theorem toggle_not_started_mutates_cex :
    gsC4.isGameStarted = false ∧
      (handleToggleActivePlayer gsC4 2).error = none ∧
      (handleToggleActivePlayer gsC4 2).state ≠ gsC4 := by
  refine ⟨by decide, by decide, by decide⟩

/-- C4 amended: `handleNextPhase`, `handlePrevPhase` and `handleSetPhase`
on a not-started match report an error and leave the state unchanged;
`handleToggleActivePlayer` performs no such check (see the
counterexample). -/
theorem phase_ops_reject_not_started (gs : GameState) (q : Option ℚ)
    (h : gs.isGameStarted = false) :
    handleNextPhase gs = ⟨some "Game has not started", gs⟩ ∧
      handlePrevPhase gs = ⟨some "Game has not started", gs⟩ ∧
      handleSetPhase gs q = ⟨some "Game has not started", gs⟩ := by
  unfold handleNextPhase handlePrevPhase handleSetPhase
  simp [h]

/-- C4 amended, witness at `gsC4`. -/
theorem phase_ops_reject_not_started_witness :
    handleNextPhase gsC4 = ⟨some "Game has not started", gsC4⟩ ∧
      handlePrevPhase gsC4 = ⟨some "Game has not started", gsC4⟩ ∧
      handleSetPhase gsC4 (some 2) = ⟨some "Game has not started", gsC4⟩ :=
  phase_ops_reject_not_started gsC4 (some 2) (by decide)

/-- C6 counterexample: in `gsC6` the match winner is already player 2
(two recorded wins), but player 1 winning round 4 brings player 1 to two
wins as well, and `endRound` — which scans `totalWins` in ascending
player-id order and never checks an existing winner — overwrites
`gameWinner` with player 1. -/
theorem gameWinner_overwritten_cex :
    gsC6.gameWinner = some 2 ∧ (endRound gsC6).gameWinner = some 1 := by
  refine ⟨by decide, by decide⟩

/-- C6 amended: after `endRound`, if any recorded winner has at least 2
total round wins then `gameWinner` is the SMALLEST such player id
(overwriting any previous value); otherwise `gameWinner` is unchanged. -/
theorem endRound_winner_spec (gs : GameState) :
    ((∃ pid ∈ allWinnerIds (endRound gs).roundWinners,
        2 ≤ totalWins (endRound gs).roundWinners pid) →
      ∃ w, (endRound gs).gameWinner = some w ∧
        w ∈ allWinnerIds (endRound gs).roundWinners ∧
        2 ≤ totalWins (endRound gs).roundWinners w ∧
        ∀ pid ∈ allWinnerIds (endRound gs).roundWinners,
          2 ≤ totalWins (endRound gs).roundWinners pid → w ≤ pid) ∧
    ((∀ pid ∈ allWinnerIds (endRound gs).roundWinners,
        totalWins (endRound gs).roundWinners pid < 2) →
      (endRound gs).gameWinner = gs.gameWinner) := by
  have hproj : (endRound gs).gameWinner =
      match minNat? ((allWinnerIds (endRound gs).roundWinners).filter
        (fun pid => 2 ≤ totalWins (endRound gs).roundWinners pid)) with
      | some w => some w
      | none => gs.gameWinner := rfl
  cases hm : minNat? ((allWinnerIds (endRound gs).roundWinners).filter
      (fun pid => 2 ≤ totalWins (endRound gs).roundWinners pid)) with
  | some w =>
      rw [hm] at hproj
      have hwmem := minNat?_mem hm
      have hwf := List.mem_filter.mp hwmem
      have hw2 : 2 ≤ totalWins (endRound gs).roundWinners w := of_decide_eq_true hwf.2
      constructor
      · intro _
        refine ⟨w, hproj, hwf.1, hw2, ?_⟩
        intro pid hpm hp2
        exact minNat?_le hm pid (List.mem_filter.mpr ⟨hpm, decide_eq_true hp2⟩)
      · intro hall
        exact absurd hw2 (not_le.mpr (hall w hwf.1))
  | none =>
      rw [hm] at hproj
      have hnil := minNat?_eq_none.mp hm
      constructor
      · rintro ⟨pid, hpm, hp2⟩
        have hmemf : pid ∈ (allWinnerIds (endRound gs).roundWinners).filter
            (fun pid => 2 ≤ totalWins (endRound gs).roundWinners pid) :=
          List.mem_filter.mpr ⟨hpm, decide_eq_true hp2⟩
        rw [hnil] at hmemf
        cases hmemf
      · intro _
        exact hproj

/-- C6 amended, witness: a first round end with a single sub-2-win winner
leaves `gameWinner` unchanged. -/
theorem endRound_winner_spec_witness :
    (endRound gsC6w).gameWinner = gsC6w.gameWinner :=
  (endRound_winner_spec gsC6w).2 (by decide)

/-- C8 (code bug): a player with an empty hand, `shouldDraw` true and a
deck of exactly 6 cards receives only 3 cards at match start — the loop
guard `i < player.deck.length` re-reads the shrinking deck — instead of
the documented 6; the three moved cards do come from the deck front to the
hand end. -/
theorem startingHands_deck6_draws3 :
    startingHands [pC8] =
      [{ pC8 with hand := [mkDeckCard 1, mkDeckCard 2, mkDeckCard 3], deck := [mkDeckCard 4, mkDeckCard 5, mkDeckCard 6] }] := by
  decide

/-- C9: on a started session, `handleSetPhase` sets any integer phase in
[−1, 3] and reports an error, leaving the state unchanged, on every
non-integer or out-of-range payload. -/
theorem handleSetPhase_nan_eq (gs : GameState) (h : ¬gs.isGameStarted = false) :
    handleSetPhase gs none = ⟨some "Invalid phase index; must be an integer", gs⟩ := by
  unfold handleSetPhase
  rw [if_neg h]

theorem handleSetPhase_some_eq (gs : GameState) (q : ℚ) (h : ¬gs.isGameStarted = false) :
    handleSetPhase gs (some q) = handleSetPhaseNum gs q := by
  unfold handleSetPhase
  rw [if_neg h]

theorem handleSetPhase_cases (gs : GameState) (h : gs.isGameStarted = true) (q : Option ℚ) :
    (∀ n : Int, q = some (n : ℚ) → -1 ≤ n → n < 4 →
        handleSetPhase gs q = ⟨none, { gs with currentPhase := n }⟩) ∧
      ((∀ n : Int, -1 ≤ n → n < 4 → q ≠ some (n : ℚ)) →
        (handleSetPhase gs q).error.isSome = true ∧ (handleSetPhase gs q).state = gs) := by
  have hng : ¬(gs.isGameStarted = false) := by
    rw [h]
    simp
  constructor
  · intro n hq hlo hhi
    subst hq
    rw [handleSetPhase_some_eq gs _ hng]
    unfold handleSetPhaseNum
    rw [if_neg (by rw [Rat.den_intCast]; simp),
      if_neg (by rw [Rat.num_intCast]; omega)]
    rw [Rat.num_intCast]
  · intro hno
    cases q with
    | none =>
        rw [handleSetPhase_nan_eq gs hng]
        exact ⟨rfl, rfl⟩
    | some r =>
        rw [handleSetPhase_some_eq gs r hng]
        unfold handleSetPhaseNum
        by_cases hden : r.den = 1
        · by_cases hrange : r.num < -1 ∨ 4 ≤ r.num
          · rw [if_neg (by simp [hden]), if_pos hrange]
            exact ⟨rfl, rfl⟩
          · exfalso
            push_neg at hrange
            exact hno r.num hrange.1 hrange.2
              (by rw [(Rat.den_eq_one_iff r).mp hden])
        · rw [if_pos hden]
          exact ⟨rfl, rfl⟩

/-- C9 witness: setting phase 2 on the started session `gsW9`. -/
theorem handleSetPhase_cases_witness :
    handleSetPhase gsW9 (some ((2 : Int) : ℚ)) = ⟨none, { gsW9 with currentPhase := 2 }⟩ :=
  (handleSetPhase_cases gsW9 (by decide) (some ((2 : Int) : ℚ))).1 2 rfl (by decide) (by decide)

/-- C10: on a started session in the transient Draw phase (−1), the
cyclic advance lands on Setup(0) and the cyclic retreat on Scoring(2),
each changing nothing but the phase (in particular no hand or deck). -/
theorem draw_advance_retreat (gs : GameState) (hs : gs.isGameStarted = true)
    (hp : gs.currentPhase = -1) :
    handleNextPhase gs = ⟨none, { gs with currentPhase := 0 }⟩ ∧
      handlePrevPhase gs = ⟨none, { gs with currentPhase := 2 }⟩ := by
  have hng : ¬(gs.isGameStarted = false) := by
    rw [hs]
    simp
  have hz : jsOrZero gs.currentPhase = -1 := by
    rw [hp]
    decide
  constructor
  · unfold handleNextPhase
    rw [if_neg hng, hz]
    dsimp only
    rw [show Int.tmod ((-1 : Int) + 1) 4 = 0 from by decide]
  · unfold handlePrevPhase
    rw [if_neg hng, hz]
    dsimp only
    rw [show Int.tmod ((-1 : Int) - 1 + 4) 4 = 2 from by decide]

/-- C10 witness at `gsW10`. -/
theorem draw_advance_retreat_witness :
    handleNextPhase gsW10 = ⟨none, { gsW10 with currentPhase := 0 }⟩ ∧
      handlePrevPhase gsW10 = ⟨none, { gsW10 with currentPhase := 2 }⟩ :=
  draw_advance_retreat gsW10 (by decide) (by decide)

end NewAvalon
